import Mathlib

/-!
Verification of the e2b-rs command-execution core: the Connect envelope
codec (`src/rpc/client.rs`), the process event stream, and the command
session manager (`src/api/commands.rs`).  Rust machine integers are
modelled as `Nat`/`Int`; bytes are `Nat` values below 256; fallible
operations return `Option`/`Except`.
-/

/-- Decidable equality for `Except`, used to evaluate concrete runs of
the fallible operations. -/
instance {ε α : Type} [DecidableEq ε] [DecidableEq α] : DecidableEq (Except ε α) := fun x y =>
  match x, y with
  | .ok a, .ok b =>
    if h : a = b then .isTrue (by rw [h]) else .isFalse (fun hc => h (Except.ok.inj hc))
  | .error a, .error b =>
    if h : a = b then .isTrue (by rw [h]) else .isFalse (fun hc => h (Except.error.inj hc))
  | .ok _, .error _ => .isFalse (fun hc => Except.noConfusion hc)
  | .error _, .ok _ => .isFalse (fun hc => Except.noConfusion hc)

namespace E2b

/-- The `Error` enum from `src/error.rs`.  The wrapped foreign errors
(`reqwest::Error`, `serde_json::Error`, `url::ParseError`) are modelled
by their display strings. -/
inductive Error where
  | http (msg : String)
  | json (msg : String)
  | url (msg : String)
  | apiKeyNotFound
  | api (status : Nat) (message : String)
  | authentication (msg : String)
  | notFound (msg : String)
  | rateLimit
  | timeout
  | configuration (msg : String)
deriving DecidableEq, Repr

/-- `ProcessData` from `src/rpc/client.rs`: optional base64-encoded
stdout/stderr chunks. -/
structure ProcessData where
  stdout : Option String
  stderr : Option String
deriving DecidableEq, Repr

/-- `ProcessEnd` from `src/rpc/client.rs`. -/
structure ProcessEnd where
  exited : Bool
  status : String
  exit_code : Option Int
deriving DecidableEq, Repr

/-- `ProcessEventData` from `src/rpc/client.rs` (untagged union of the
three event shapes). -/
inductive ProcessEventData where
  | start (pid : Nat)
  | data (d : ProcessData)
  | end_ (e : ProcessEnd)
deriving DecidableEq, Repr

/-- `CommandResult` from `src/models/commands.rs`; `execution_time` is a
duration in seconds. -/
structure CommandResult where
  stdout : String
  stderr : String
  exit_code : Int
  execution_time : Option Nat
deriving DecidableEq, Repr

/-- `CommandOptions` from `src/models/commands.rs`; `timeout` is a
duration in seconds. -/
structure CommandOptions where
  envs : Option (List (String × String))
  cwd : Option String
  timeout : Option Nat
  background : Bool
deriving DecidableEq, Repr

/-- `impl Default for CommandOptions` (`src/models/commands.rs` lines
113-122): no envs, no cwd, a 60-second timeout, not background. -/
def CommandOptions.default : CommandOptions := ⟨none, none, some 60, false⟩

/-! ### Base64 decoding

Model of `base64::engine::general_purpose::STANDARD.decode`: the
standard alphabet, mandatory canonical padding, and rejection of
non-zero trailing bits, processed in blocks of four characters. -/

/-- Value of one character of the standard base64 alphabet. -/
def b64Val (c : Char) : Option Nat :=
  let n := c.toNat
  if 65 ≤ n ∧ n ≤ 90 then some (n - 65)
  else if 97 ≤ n ∧ n ≤ 122 then some (n - 97 + 26)
  else if 48 ≤ n ∧ n ≤ 57 then some (n - 48 + 52)
  else if n = 43 then some 62
  else if n = 47 then some 63
  else none

/-- Decode a base64 character sequence in blocks of four; `=` padding is
allowed only in the final block, and trailing bits must be zero (the
STANDARD engine is canonical). -/
def base64DecodeAux : List Char → Option (List Nat)
  | [] => some []
  | c1 :: c2 :: c3 :: c4 :: rest =>
    match b64Val c1, b64Val c2 with
    | some v1, some v2 =>
      if c3 = '=' then
        if c4 = '=' ∧ rest = [] ∧ v2 % 16 = 0 then some [v1 * 4 + v2 / 16] else none
      else
        match b64Val c3 with
        | some v3 =>
          if c4 = '=' then
            if rest = [] ∧ v3 % 4 = 0 then
              some [v1 * 4 + v2 / 16, v2 % 16 * 16 + v3 / 4]
            else none
          else
            match b64Val c4 with
            | some v4 =>
              match base64DecodeAux rest with
              | some tail =>
                some ((v1 * 4 + v2 / 16) :: (v2 % 16 * 16 + v3 / 4) :: (v3 % 4 * 64 + v4) :: tail)
              | none => none
            | none => none
        | none => none
    | _, _ => none
  | _ => none

/-- `general_purpose::STANDARD.decode` on a string. -/
def base64Decode (s : String) : Option (List Nat) :=
  base64DecodeAux s.data

/-! ### UTF-8 validation

Model of `String::from_utf8`: strict UTF-8, rejecting continuation-byte
errors, overlong forms, surrogates, and code points above `0x10FFFF`. -/

/-- Strict UTF-8 decoding of a byte list into characters. -/
def utf8Decode : List Nat → Option (List Char)
  | [] => some []
  | b1 :: rest =>
    if b1 < 128 then
      match utf8Decode rest with
      | some cs => some (Char.ofNat b1 :: cs)
      | none => none
    else if b1 < 194 then none
    else if b1 < 224 then
      match rest with
      | b2 :: rest2 =>
        if 128 ≤ b2 ∧ b2 < 192 then
          match utf8Decode rest2 with
          | some cs => some (Char.ofNat ((b1 - 192) * 64 + (b2 - 128)) :: cs)
          | none => none
        else none
      | [] => none
    else if b1 < 240 then
      match rest with
      | b2 :: b3 :: rest3 =>
        let lo2 := if b1 = 224 then 160 else 128
        let hi2 := if b1 = 237 then 160 else 192
        if lo2 ≤ b2 ∧ b2 < hi2 ∧ 128 ≤ b3 ∧ b3 < 192 then
          match utf8Decode rest3 with
          | some cs =>
            some (Char.ofNat ((b1 - 224) * 4096 + (b2 - 128) * 64 + (b3 - 128)) :: cs)
          | none => none
        else none
      | _ => none
    else if b1 < 245 then
      match rest with
      | b2 :: b3 :: b4 :: rest4 =>
        let lo2 := if b1 = 240 then 144 else 128
        let hi2 := if b1 = 244 then 144 else 192
        if lo2 ≤ b2 ∧ b2 < hi2 ∧ 128 ≤ b3 ∧ b3 < 192 ∧ 128 ≤ b4 ∧ b4 < 192 then
          match utf8Decode rest4 with
          | some cs =>
            some (Char.ofNat
              ((b1 - 240) * 262144 + (b2 - 128) * 4096 + (b3 - 128) * 64 + (b4 - 128)) :: cs)
          | none => none
        else none
      | _ => none
    else none

/-- `base64Decode` followed by `String::from_utf8`, as one step: the
decoded text of a stdout/stderr chunk, or `none` when either base64
decoding or UTF-8 conversion fails. -/
def decodeField (s : String) : Option String :=
  match base64Decode s with
  | some bs =>
    match utf8Decode bs with
    | some cs => some (String.mk cs)
    | none => none
  | none => none

/-! ### Rust string helpers used by the exit-code fallback -/

/-- `str::trim`: strip leading and trailing whitespace. -/
def rustTrim (cs : List Char) : List Char :=
  ((cs.dropWhile Char.isWhitespace).reverse.dropWhile Char.isWhitespace).reverse

/-- Value of a digit sequence in base 10. -/
def digitsVal (ds : List Char) : Nat :=
  ds.foldl (fun a c => a * 10 + (c.toNat - 48)) 0

/-- Sign-applied digit parse with the `i32` range check of
`str::parse::<i32>`. -/
def parseDigits (sgn : Int) (ds : List Char) : Option Int :=
  if ds.isEmpty then none
  else if ds.all Char.isDigit then
    let v : Int := sgn * (digitsVal ds : Nat)
    if -2147483648 ≤ v ∧ v ≤ 2147483647 then some v else none
  else none

/-- `code_str.trim().parse::<i32>().ok()`: optional sign, at least one
digit, nothing else, and the value must fit in `i32`. -/
def parseI32 (cs : List Char) : Option Int :=
  match rustTrim cs with
  | '+' :: ds => parseDigits 1 ds
  | '-' :: ds => parseDigits (-1) ds
  | ds => parseDigits 1 ds

/-- `str::contains(needle)` for a non-empty needle: the needle occurs as
a contiguous subsequence. -/
def subOccurs (needle : List Char) : List Char → Bool
  | [] => needle.isEmpty
  | c :: rest => needle.isPrefixOf (c :: rest) || subOccurs needle rest

/-- Worker for `str::split(sep)`: scan the haystack left to right; on a
(leftmost, non-overlapping) separator match emit the accumulated piece
and skip the remaining `sep.length - 1` separator characters via the
first argument. -/
def goSplit (needle : List Char) : Nat → List Char → List Char → List (List Char)
  | _, acc, [] => [acc.reverse]
  | skip + 1, acc, _ :: rest => goSplit needle skip acc rest
  | 0, acc, c :: rest =>
    if needle.isPrefixOf (c :: rest) then
      acc.reverse :: goSplit needle (needle.length - 1) [] rest
    else goSplit needle 0 (c :: acc) rest

/-- `str::split(sep)` (non-empty `sep`), as character lists. -/
def rustSplit (s sep : String) : List (List Char) :=
  goSplit sep.data 0 [] s.data

/-- The fallback exit-code parse used on `End` events
(`src/api/commands.rs` lines 246-255): if `status` contains
`"exit status"`, split on `"exit status "` and parse the second piece
as an `i32`. -/
def statusFallback (st : String) : Option Int :=
  if subOccurs "exit status".data st.data then
    (rustSplit st "exit status ")[1]?.bind parseI32
  else none

/-! ### Synchronous drain (`CommandsApi::execute_command`, lines 106-172,
and the identical event loop of `CommandsApi::wait_for_command`,
lines 299-363) -/

/-- Decode one optional base64 field and append it to an accumulator,
with the error messages of `execute_command` (`name` is `"stdout"` or
`"stderr"`; the source appends the underlying error's display text to
the message, which is not modelled). -/
def appendDecoded (name : String) (acc : String) : Option String → Except Error String
  | none => .ok acc
  | some s =>
    match base64Decode s with
    | none => .error (.api 500 ("Failed to decode " ++ name))
    | some bs =>
      match utf8Decode bs with
      | none => .error (.api 500 ("Failed to convert " ++ name ++ " to UTF-8"))
      | some cs => .ok (acc ++ String.mk cs)

/-- The event loop of `execute_command`: accumulate decoded output,
fail the call on a decode error, and on an `End` event with
`exited = true` resolve the exit code (explicit field first, then the
`"exit status "` fallback, line 149-161) and stop.  Reaching the end of
the stream without such an `End` yields the sentinel exit code `-1`. -/
def execLoop : List ProcessEventData → String → String → Option Int → Except Error CommandResult
  | [], so, se, ec => .ok ⟨so, se, ec.getD (-1), none⟩
  | .start _ :: rest, so, se, ec => execLoop rest so se ec
  | .data d :: rest, so, se, ec =>
    match appendDecoded "stdout" so d.stdout with
    | .error e => .error e
    | .ok so' =>
      match appendDecoded "stderr" se d.stderr with
      | .error e => .error e
      | .ok se' => execLoop rest so' se' ec
  | .end_ e :: rest, so, se, ec =>
    if e.exited then
      let ec' :=
        match e.exit_code with
        | some c => some c
        | none =>
          if subOccurs "exit status".data e.status.data then
            match (rustSplit e.status "exit status ")[1]? with
            | some part => parseI32 part
            | none => ec
          else ec
      .ok ⟨so, se, ec'.getD (-1), none⟩
    else execLoop rest so se ec

/-- The synchronous drain of `execute_command` over the events yielded
by the process stream, started with empty accumulators and no exit
code.  Totality of this function models that the drain cannot hang on a
finite stream. -/
def executeCommand (events : List ProcessEventData) : Except Error CommandResult :=
  execLoop events "" "" none

/-! ### Background drainer (`CommandsApi::start_command`, lines 196-270)

The spawned task loops `while let Ok(Some(event))`, so both a stream
error and end-of-stream terminate it; stream items are therefore
`Except Error ProcessEventData`, and reaching the end of the list is
`Ok(None)`.  Data chunks that fail base64 or UTF-8 decoding are skipped
(`if let Ok(..)`), not errors.  On any `End` event the loop breaks;
the exit code is resolved only when `exited` is true. -/

/-- One field of the drainer's Data handling: append the decoded text if
decoding succeeds, otherwise leave the accumulator unchanged. -/
def drainField (acc : String) : Option String → String
  | none => acc
  | some s =>
    match decodeField s with
    | some t => acc ++ t
    | none => acc

/-- The drainer's event loop; the returned `CommandResult` is the value
sent into the oneshot result slot after the loop. -/
def drainLoop : List (Except Error ProcessEventData) → String → String → Option Int →
    CommandResult
  | [], so, se, ec => ⟨so, se, ec.getD (-1), none⟩
  | .error _ :: _, so, se, ec => ⟨so, se, ec.getD (-1), none⟩
  | .ok (.start _) :: rest, so, se, ec => drainLoop rest so se ec
  | .ok (.data d) :: rest, so, se, ec =>
    drainLoop rest (drainField so d.stdout) (drainField se d.stderr) ec
  | .ok (.end_ e) :: _, so, se, ec =>
    let ec' :=
      if e.exited then
        match e.exit_code with
        | some c => some c
        | none => statusFallback e.status
      else ec
    ⟨so, se, ec'.getD (-1), none⟩

/-- The drainer task run from empty accumulators. -/
def drainRun (stream : List (Except Error ProcessEventData)) : CommandResult :=
  drainLoop stream "" "" none

/-- Every value the drainer task sends into the oneshot result slot:
exactly one send (`result_tx.send(..)` after the loop, line 264). -/
def drainSends (stream : List (Except Error ProcessEventData)) : List CommandResult :=
  [drainRun stream]

/-! ### The Commands API (`src/api/commands.rs`)

Each operation first obtains the RPC client (`get_rpc_client`, lines
30-35) and fails with `Error::Api { status: 500, .. }` when `init_rpc`
has not been called.  The remote side is abstracted as an oracle
carried inside the `Option` that models `rpc_client`: for a run, the
events its stream yields together with the wall-clock seconds the drain
takes; for `kill`/`send_stdin`, the response of the signal/input call. -/

/-- `ProcessInfo` from `src/models/commands.rs`. -/
structure ProcessInfo where
  pid : Nat
  tag : Option String
  cmd : String
  args : List String
  envs : List (String × String)
  cwd : Option String
deriving DecidableEq, Repr

/-- `CommandsApi::build_shell_command` (lines 468-473): every command
string is wrapped, unconditionally, as `/bin/bash -l -c cmd`. -/
def build_shell_command (cmd : String) : String × List String :=
  ("/bin/bash", ["-l", "-c", cmd])

/-- The error returned by `get_rpc_client` when `init_rpc` has not been
called (lines 31-34). -/
def rpcUninitError : Error :=
  .api 500 "RPC client not initialized. Call init_rpc first."

/-- `true` exactly on the `Error::Configuration` variant. -/
def isConfigurationError : Error → Bool
  | .configuration _ => true
  | _ => false

/-- `true` exactly on `Error::Api { status: 404, .. }`, the pattern
`kill` translates to `Ok(false)`. -/
def isApi404 : Error → Bool
  | .api 404 _ => true
  | _ => false

/-- Oracle for one synchronous run: the events the started process
stream yields, and the seconds the whole drain takes (the quantity the
`tokio::time::timeout` wrapper races against). -/
structure ExecEnv where
  events : List ProcessEventData
  elapsed : Nat
deriving DecidableEq, Repr

/-- Seconds taken by the wrapped future: with no RPC client the future
errors immediately. -/
def execDuration : Option ExecEnv → Nat
  | none => 0
  | some ex => ex.elapsed

/-- `CommandsApi::execute_command` (lines 90-172): obtain the RPC
client (or fail), build the start parameters from
`build_shell_command cmd` and the options, then drain the stream.  The
request parameters determine the remote stream, which the `ExecEnv`
oracle stands in for. -/
def execute_command (rpc : Option ExecEnv) (cmd : String) (options : CommandOptions) :
    Except Error CommandResult :=
  match rpc with
  | none => .error rpcUninitError
  | some ex =>
    let _ := build_shell_command cmd
    let _ := options
    executeCommand ex.events

/-- `CommandsApi::run_with_options` (lines 61-80): reject background
options, then drain, bounded by the configured timeout if any;
expiry maps to `Error::Timeout`. -/
def run_with_options (rpc : Option ExecEnv) (cmd : String) (options : CommandOptions) :
    Except Error CommandResult :=
  if options.background then
    .error (.api 400 "Use run_background for background commands")
  else
    match options.timeout with
    | some t =>
      if t < execDuration rpc then .error .timeout else execute_command rpc cmd options
    | none => execute_command rpc cmd options

/-- `CommandsApi::run` (lines 37-39): run with the default options. -/
def run (rpc : Option ExecEnv) (cmd : String) : Except Error CommandResult :=
  run_with_options rpc cmd CommandOptions.default

/-- `CommandsApi::run_with_timeout` (lines 41-51): default options with
an explicit timeout. -/
def run_with_timeout (rpc : Option ExecEnv) (cmd : String) (d : Nat) :
    Except Error CommandResult :=
  run_with_options rpc cmd ⟨none, none, some d, false⟩

/-- The pre-`Start` scan of `CommandsApi::start_command` (lines
192-287): errors propagate (`?`), `Data` before `Start` is skipped, an
immediate `End` is the "ended immediately" error, and end-of-stream
without a `Start` is the "no PID received" error.  On `Start`, the
handle's pid is returned together with the value the spawned drainer
eventually resolves the result slot with. -/
def startScan : List (Except Error ProcessEventData) → Except Error (Nat × CommandResult)
  | [] => .error (.api 500 "Failed to start process: no PID received")
  | .error e :: _ => .error e
  | .ok (.start pid) :: rest => .ok (pid, drainRun rest)
  | .ok (.data _) :: rest => startScan rest
  | .ok (.end_ _) :: _ => .error (.api 500 "Process ended immediately after start")

/-- `CommandsApi::start_command` (lines 174-288), reached from
`run_background` / `run_background_with_options`. -/
def start_command (rpc : Option (List (Except Error ProcessEventData))) (cmd : String) :
    Except Error (Nat × CommandResult) :=
  match rpc with
  | none => .error rpcUninitError
  | some stream =>
    let _ := build_shell_command cmd
    startScan stream

/-- `CommandsApi::run_background` (lines 53-59). -/
def run_background (rpc : Option (List (Except Error ProcessEventData))) (cmd : String) :
    Except Error (Nat × CommandResult) :=
  start_command rpc cmd

/-- `CommandsApi::wait_for_command` (lines 290-364): obtain the RPC
client (or fail), connect by pid, then run the same event loop as the
synchronous drain (its `Data`/`End` handling is identical and `Start`
events are skipped in both). -/
def wait_for_command (rpc : Option (List ProcessEventData)) (pid : Nat) :
    Except Error CommandResult :=
  match rpc with
  | none => .error rpcUninitError
  | some events =>
    let _ := pid
    executeCommand events

/-- `CommandsApi::list` (lines 366-425): obtain the RPC client (or
fail), then parse the listing response; the response and its parse are
abstracted as the oracle and its continuation. -/
def list {α : Type} (rpc : Option α) (parseResponse : α → Except Error (List ProcessInfo)) :
    Except Error (List ProcessInfo) :=
  match rpc with
  | none => .error rpcUninitError
  | some a => parseResponse a

/-- `CommandsApi::kill` (lines 427-442): obtain the RPC client (or
fail), send SIGKILL; `Ok` maps to `true`, `Error::Api { status: 404 }`
to `false`, and any other error propagates.  The oracle is the
response of `process_send_signal`. -/
def kill (rpc : Option (Except Error Unit)) (pid : Nat) : Except Error Bool :=
  match rpc with
  | none => .error rpcUninitError
  | some resp =>
    let _ := pid
    match resp with
    | .ok _ => .ok true
    | .error e => if isApi404 e then .ok false else .error e

/-- `CommandsApi::send_stdin` (lines 444-461): obtain the RPC client
(or fail), base64-encode the data (not modelled beyond the call shape),
send it, and propagate the response. -/
def send_stdin (rpc : Option (Except Error Unit)) (pid : Nat) (data : String) :
    Except Error Unit :=
  match rpc with
  | none => .error rpcUninitError
  | some resp =>
    let _ := pid
    let _ := data
    match resp with
    | .ok _ => .ok ()
    | .error e => .error e

/-! ### Envelope codec (`src/rpc/client.rs`)

Bytes are `Nat` values below 256; a buffer is a byte list. -/

/-- Big-endian bytes of `n` as a `u32` (`u32::to_be_bytes`). -/
def toBE32 (n : Nat) : List Nat :=
  [n / 16777216 % 256, n / 65536 % 256, n / 256 % 256, n % 256]

/-- `create_connect_envelope` (lines 370-380): one flags byte equal to
0, the 4-byte big-endian length (`data.len() as u32` wraps at `2^32`),
then the payload. -/
def create_connect_envelope (data : List Nat) : List Nat :=
  0 :: toBE32 (data.length % 4294967296) ++ data

/-- The big-endian length field read by `ProcessStream::extract_messages`
(`u32::from_be_bytes` over buffer bytes 1..5, lines 471-476). -/
def hdrLen (b1 b2 b3 b4 : Nat) : Nat :=
  ((b1 * 256 + b2) * 256 + b3) * 256 + b4

/-- The framing part of `ProcessStream::extract_messages` (lines
465-497): repeatedly, if at least 5 bytes are buffered and the 4-byte
big-endian length at offset 1 is fully buffered, split off the frame,
record whether its flags byte has bit 1 set (end-of-stream), and keep
its payload bytes; otherwise stop, leaving the partial tail untouched.
Returns (payload byte lists, remaining buffer, end-of-stream flag).
The full function, including the per-frame UTF-8 `String` conversion of
lines 486-489, is `extract_messages` below. -/
def extractFrames : List Nat → List (List Nat) × List Nat × Bool
  | f :: b1 :: b2 :: b3 :: b4 :: rest =>
    if hdrLen b1 b2 b3 b4 ≤ rest.length then
      (rest.take (hdrLen b1 b2 b3 b4) :: (extractFrames (rest.drop (hdrLen b1 b2 b3 b4))).1,
        (extractFrames (rest.drop (hdrLen b1 b2 b3 b4))).2.1,
        (f &&& 2 != 0) || (extractFrames (rest.drop (hdrLen b1 b2 b3 b4))).2.2)
    else ([], f :: b1 :: b2 :: b3 :: b4 :: rest, false)
  | b => ([], b, false)
termination_by b => b.length
decreasing_by
  all_goals simp only [List.length_drop, List.length_cons]
  all_goals omega

/-- The per-frame `String::from_utf8` conversion of `extract_messages`
(lines 486-489), applied to the extracted payloads in order: the first
payload that is not valid UTF-8 fails the whole call with the decode
error (the source appends the error display text, which is not
modelled), and no message from that call is delivered, since
`next_event` propagates the error (lines 448 and 459). -/
def utf8Messages : List (List Nat) → Except Error (List String)
  | [] => .ok []
  | p :: rest =>
    match utf8Decode p with
    | none => .error (.api 500 "Failed to decode message")
    | some cs =>
      match utf8Messages rest with
      | .ok ms => .ok (String.mk cs :: ms)
      | .error e => .error e

/-- `ProcessStream::extract_messages` (lines 465-497) in full: the
framing loop (`extractFrames`) followed by the UTF-8 conversion of each
extracted payload into a `String` message (`utf8Messages`); a non-UTF-8
payload errors the call and drops the frames.  On success returns
(messages, remaining buffer, end-of-stream flag). -/
def extract_messages (b : List Nat) : Except Error (List String × List Nat × Bool) :=
  match utf8Messages (extractFrames b).1 with
  | .ok ms => .ok (ms, (extractFrames b).2.1, (extractFrames b).2.2)
  | .error e => .error e

/-! ### Lemmas about the envelope codec -/

theorem extractFrames_step (f b1 b2 b3 b4 : Nat) (rest : List Nat)
    (h : hdrLen b1 b2 b3 b4 ≤ rest.length) :
    extractFrames (f :: b1 :: b2 :: b3 :: b4 :: rest) =
      ((rest.take (hdrLen b1 b2 b3 b4)) :: (extractFrames (rest.drop (hdrLen b1 b2 b3 b4))).1,
        (extractFrames (rest.drop (hdrLen b1 b2 b3 b4))).2.1,
        (f &&& 2 != 0) || (extractFrames (rest.drop (hdrLen b1 b2 b3 b4))).2.2) := by
  rw [extractFrames]
  simp [h]

theorem extractFrames_stuck (f b1 b2 b3 b4 : Nat) (rest : List Nat)
    (h : rest.length < hdrLen b1 b2 b3 b4) :
    extractFrames (f :: b1 :: b2 :: b3 :: b4 :: rest) =
      ([], f :: b1 :: b2 :: b3 :: b4 :: rest, false) := by
  rw [extractFrames]
  simp [Nat.not_le.mpr h]

theorem extractFrames_short (b : List Nat) (h : b.length < 5) :
    extractFrames b = ([], b, false) := by
  match b with
  | [] => (rw [extractFrames]; simp)
  | [_] => (rw [extractFrames]; simp)
  | [_, _] => (rw [extractFrames]; simp)
  | [_, _, _] => (rw [extractFrames]; simp)
  | [_, _, _, _] => (rw [extractFrames]; simp)
  | _ :: _ :: _ :: _ :: _ :: rest => exact absurd h (by simp)

/-- Reassembling the big-endian bytes of a `u32` recovers it. -/
theorem hdrLen_toBE32 (n : Nat) (h : n < 4294967296) :
    hdrLen (n / 16777216 % 256) (n / 65536 % 256) (n / 256 % 256) (n % 256) = n := by
  simp only [hdrLen]
  omega

/-! ## Claim theorems -/

/-- C1 (counterexample): the claim says a command without shell
metacharacters, such as `"echo hi"`, is split on whitespace into
command `echo` with args `["hi"]`; in the code `build_shell_command`
wraps it in a login shell unconditionally. -/
theorem build_shell_command_no_whitespace_split :
    build_shell_command "echo hi" = ("/bin/bash", ["-l", "-c", "echo hi"]) ∧
      build_shell_command "echo hi" ≠ ("echo", ["hi"]) := by
  constructor
  · rfl
  · decide

/-- C1 (amended): for every command string `cmd`, `run` and
`run_background` build the process parameters unconditionally as an
invocation of the login shell `/bin/bash` with arguments
`["-l", "-c", cmd]`; in particular `cmd = "echo a | wc -l"` is wrapped
as `/bin/bash -l -c "echo a | wc -l"`, and `cmd = "echo hi"` is wrapped
the same way rather than split on whitespace. -/
theorem build_shell_command_always_wraps :
    (∀ cmd : String, build_shell_command cmd = ("/bin/bash", ["-l", "-c", cmd])) ∧
      build_shell_command "echo a | wc -l" =
        ("/bin/bash", ["-l", "-c", "echo a | wc -l"]) := by
  exact ⟨fun _ => rfl, rfl⟩

/-- C2: the exit code of a synchronous run that observes an `End` event
(with `exited` set) prefers the event's explicit `exit_code` field; if
that field is absent it is the integer parsed after `"exit status "` in
the status string when that parse succeeds, and the sentinel `-1`
otherwise.  In particular `End{exit_code: Some(7), status:
"irrelevant"}` yields 7, `End{exit_code: None, status: "exit status
3"}` yields 3, and `End{exit_code: None, status: "killed"}` yields
-1. -/
theorem exit_code_resolution :
    (∀ (st : String) (c : Int),
      executeCommand [.end_ ⟨true, st, some c⟩] = .ok ⟨"", "", c, none⟩) ∧
    (∀ (st : String) (n : Int), statusFallback st = some n →
      executeCommand [.end_ ⟨true, st, none⟩] = .ok ⟨"", "", n, none⟩) ∧
    (∀ st : String, statusFallback st = none →
      executeCommand [.end_ ⟨true, st, none⟩] = .ok ⟨"", "", -1, none⟩) ∧
    executeCommand [.end_ ⟨true, "irrelevant", some 7⟩] = .ok ⟨"", "", 7, none⟩ ∧
    executeCommand [.end_ ⟨true, "exit status 3", none⟩] = .ok ⟨"", "", 3, none⟩ ∧
    executeCommand [.end_ ⟨true, "killed", none⟩] = .ok ⟨"", "", -1, none⟩ := by
  refine ⟨fun st c => rfl, fun st n h => ?_, fun st h => ?_, by decide, by decide, by decide⟩
  · by_cases hc : subOccurs "exit status".data st.data
    · simp only [statusFallback, hc, if_true] at h
      cases hp : (rustSplit st "exit status ")[1]? with
      | none => rw [hp] at h; simp at h
      | some part =>
        rw [hp] at h
        simp only [Option.some_bind] at h
        simp [executeCommand, execLoop, hc, hp, h]
    · simp [statusFallback, hc] at h
  · by_cases hc : subOccurs "exit status".data st.data
    · simp only [statusFallback, hc, if_true] at h
      cases hp : (rustSplit st "exit status ")[1]? with
      | none => simp [executeCommand, execLoop, hc, hp]
      | some part =>
        rw [hp] at h
        simp only [Option.some_bind] at h
        simp [executeCommand, execLoop, hc, hp, h]
    · simp [executeCommand, execLoop, hc]

/-- C2 (witness): the resolution rule applied to the concrete status
`"exit status 3"`. -/
theorem exit_code_resolution_witness :
    statusFallback "exit status 3" = some 3 ∧
      executeCommand [.end_ ⟨true, "exit status 3", none⟩] = .ok ⟨"", "", 3, none⟩ :=
  ⟨by decide, exit_code_resolution.2.1 "exit status 3" 3 (by decide)⟩

/-- Framing-level round trip: the framing loop on the frame produced by
`create_connect_envelope p` extracts exactly one payload equal to `p`,
with no bytes left and no end-of-stream flag, whenever `p`'s length
fits the 4-byte length field. -/
theorem extractFrames_roundtrip (p : List Nat) (h : p.length < 4294967296) :
    extractFrames (create_connect_envelope p) = ([p], [], false) := by
  have hmod : p.length % 4294967296 = p.length := Nat.mod_eq_of_lt h
  have hlen : hdrLen (p.length / 16777216 % 256) (p.length / 65536 % 256)
      (p.length / 256 % 256) (p.length % 256) = p.length := hdrLen_toBE32 p.length h
  show extractFrames (0 :: toBE32 (p.length % 4294967296) ++ p) = ([p], [], false)
  rw [hmod]
  simp only [toBE32, List.cons_append, List.nil_append]
  rw [extractFrames_step _ _ _ _ _ _ (le_of_eq hlen), hlen, List.take_length, List.drop_length,
    extractFrames_short [] (by simp)]
  rfl


/-- Decomposition of the framing loop over a buffer split: extracting
from `b1 ++ b2` yields the frames of `b1`, then the frames of `b1`'s
retained remainder prepended to `b2`, with the end-of-stream flags
combined; the final remainder is that of the second extraction. -/
theorem extractFrames_append (b1 b2 : List Nat) :
    extractFrames (b1 ++ b2) =
      ((extractFrames b1).1 ++ (extractFrames ((extractFrames b1).2.1 ++ b2)).1,
        (extractFrames ((extractFrames b1).2.1 ++ b2)).2.1,
        (extractFrames b1).2.2 || (extractFrames ((extractFrames b1).2.1 ++ b2)).2.2) := by
  induction b1 using extractFrames.induct generalizing b2 with
  | case1 f b1 b2' b3 b4 rest h ih =>
    have e1 : (f :: b1 :: b2' :: b3 :: b4 :: rest) ++ b2 =
        f :: b1 :: b2' :: b3 :: b4 :: (rest ++ b2) := by simp
    have h2 : hdrLen b1 b2' b3 b4 ≤ (rest ++ b2).length := by
      simp only [List.length_append]
      omega
    rw [e1, extractFrames_step f b1 b2' b3 b4 (rest ++ b2) h2,
      extractFrames_step f b1 b2' b3 b4 rest h,
      List.take_append_of_le_length h, List.drop_append_of_le_length h,
      ih b2]
    simp [Bool.or_assoc]
  | case2 f b1 b2' b3 b4 rest h =>
    rw [extractFrames_stuck f b1 b2' b3 b4 rest (Nat.not_le.mp h)]
    simp
  | case3 b hne =>
    have hb : extractFrames b = ([], b, false) := by
      rcases b with _ | ⟨x1, _ | ⟨x2, _ | ⟨x3, _ | ⟨x4, _ | ⟨x5, rest⟩⟩⟩⟩⟩
      · exact extractFrames_short [] (by simp)
      · exact extractFrames_short _ (by simp)
      · exact extractFrames_short _ (by simp)
      · exact extractFrames_short _ (by simp)
      · exact extractFrames_short _ (by simp)
      · exact (hne x1 x2 x3 x4 x5 rest rfl).elim
    rw [hb]
    simp

/-- Decoding the concatenation of the encodings of a payload list in
one step recovers exactly that payload list, an empty remainder, and no
end-of-stream flag. -/
theorem decode_concat (ps : List (List Nat)) (h : ∀ p ∈ ps, p.length < 4294967296) :
    extractFrames ((ps.map create_connect_envelope).flatten) = (ps, [], false) := by
  induction ps with
  | nil => simpa using extractFrames_short [] (by simp)
  | cons p ps ih =>
    have hp : p.length < 4294967296 := h p (by simp)
    have hps : ∀ q ∈ ps, q.length < 4294967296 := fun q hq => h q (by simp [hq])
    simp only [List.map_cons, List.flatten_cons]
    rw [extractFrames_append, extractFrames_roundtrip p hp]
    simp [ih hps]

/-- C3 (counterexample): the claim says `decode(encode(p))` yields one
complete frame whose payload equals `p` for *every* payload byte
sequence `p`; for the non-UTF-8 payload `[255]` the program's
`extract_messages` instead fails the whole call with the decode error
(the frame is dropped), delivering nothing. -/
theorem envelope_roundtrip_non_utf8 :
    extract_messages (create_connect_envelope [255]) =
      .error (.api 500 "Failed to decode message") := by
  have hf := extractFrames_roundtrip [255] (by decide)
  simp only [extract_messages, hf]
  decide

/-- C3 (amended): for every payload `p` that is valid UTF-8 (and whose
length fits the 4-byte length field), decoding the frame produced by
`encode(p)` — one flags byte equal to 0, the 4-byte big-endian length
of `p`, then `p` — yields exactly one message whose text is `p`'s
UTF-8 decoding, with no bytes left unconsumed and no end-of-stream
flag; a payload that is not valid UTF-8 instead fails the whole call
with the decode error. -/
theorem envelope_message_roundtrip :
    (∀ (p : List Nat) (cs : List Char), p.length < 4294967296 → utf8Decode p = some cs →
      extract_messages (create_connect_envelope p) = .ok ([String.mk cs], [], false)) ∧
    (∀ q : List Nat, q.length < 4294967296 → utf8Decode q = none →
      extract_messages (create_connect_envelope q) =
        .error (.api 500 "Failed to decode message")) := by
  constructor
  · intro p cs h hu
    have hf := extractFrames_roundtrip p h
    simp [extract_messages, hf, utf8Messages, hu]
  · intro q h hu
    have hf := extractFrames_roundtrip q h
    simp [extract_messages, hf, utf8Messages, hu]

/-- C3 (witness): the message round trip at the concrete payload
`[104, 105]`, the UTF-8 bytes of `"hi"`. -/
theorem envelope_message_roundtrip_witness :
    extract_messages (create_connect_envelope [104, 105]) =
      .ok ([String.mk ['h', 'i']], [], false) :=
  envelope_message_roundtrip.1 [104, 105] ['h', 'i'] (by decide) (by decide)

/-- The message conversion over a split payload list: converting
`xs ++ ys` to messages succeeds exactly when both halves do, and the
messages concatenate. -/
theorem utf8Messages_append (xs ys : List (List Nat)) (ms : List String)
    (h : utf8Messages (xs ++ ys) = .ok ms) :
    ∃ m1 m2, utf8Messages xs = .ok m1 ∧ utf8Messages ys = .ok m2 ∧ ms = m1 ++ m2 := by
  induction xs generalizing ms with
  | nil => exact ⟨[], ms, rfl, h, rfl⟩
  | cons p xs ih =>
    cases hu : utf8Decode p with
    | none => simp [utf8Messages, hu] at h
    | some cs =>
      cases hrest : utf8Messages (xs ++ ys) with
      | error e => simp [utf8Messages, hu, hrest] at h
      | ok ms' =>
        have hms : ms = String.mk cs :: ms' := by
          simp [utf8Messages, hu, hrest] at h
          exact h.symm
        obtain ⟨m1, m2, h1, h2, h3⟩ := ih ms' hrest
        exact ⟨String.mk cs :: m1, m2, by simp [utf8Messages, hu, h1], h2, by simp [hms, h3]⟩

/-- C4: for every valid multi-frame encoding — a concatenation of
envelopes of UTF-8 text payloads whose lengths fit the length field —
and every byte offset `n`, feeding the first `n` bytes to one decode
step and the rest (appended to the retained remainder) to a second
step succeeds and yields the same messages in the same order as
decoding the whole buffer in a single step; the partial trailing frame
is carried untouched in the retained remainder between the steps, and
nothing is left over at the end. -/
theorem split_buffer_decode (ps : List (List Nat)) (ms : List String) (n : Nat)
    (h : ∀ p ∈ ps, p.length < 4294967296) (hm : utf8Messages ps = .ok ms) :
    ∃ ms1 ms2 r1,
      extract_messages (((ps.map create_connect_envelope).flatten).take n) =
        .ok (ms1, r1, false) ∧
      extract_messages (r1 ++ ((ps.map create_connect_envelope).flatten).drop n) =
        .ok (ms2, [], false) ∧
      ms1 ++ ms2 = ms ∧
      extract_messages ((ps.map create_connect_envelope).flatten) = .ok (ms, [], false) := by
  have hall := decode_concat ps h
  have happ := extractFrames_append (((ps.map create_connect_envelope).flatten).take n)
    (((ps.map create_connect_envelope).flatten).drop n)
  rw [List.take_append_drop n ((ps.map create_connect_envelope).flatten), hall] at happ
  have hfr := congrArg Prod.fst happ
  have hrem := congrArg (fun t => t.2.1) happ
  have hflag := congrArg (fun t => t.2.2) happ
  simp only at hfr hrem hflag
  obtain ⟨hx1, hx2⟩ := Bool.or_eq_false_iff.mp hflag.symm
  have hm2 : utf8Messages
      ((extractFrames (((ps.map create_connect_envelope).flatten).take n)).1 ++
        (extractFrames
          ((extractFrames (((ps.map create_connect_envelope).flatten).take n)).2.1 ++
            ((ps.map create_connect_envelope).flatten).drop n)).1) = .ok ms := hfr ▸ hm
  obtain ⟨m1, m2, hma, hmb, hmc⟩ := utf8Messages_append _ _ ms hm2
  refine ⟨m1, m2, (extractFrames (((ps.map create_connect_envelope).flatten).take n)).2.1,
    ?_, ?_, hmc.symm, ?_⟩
  · simp [extract_messages, hma, hx1]
  · simp [extract_messages, hmb, hrem.symm, hx2]
  · simp [extract_messages, hall, hm]

/-- C4 (witness): the two-chunk decode of the encoding of the two
single-byte UTF-8 payloads `"h"` and `"i"`, split at byte offset 3. -/
theorem split_buffer_decode_witness :
    ∃ ms1 ms2 r1,
      extract_messages ((([[104], [105]].map create_connect_envelope).flatten).take 3) =
        .ok (ms1, r1, false) ∧
      extract_messages (r1 ++ (([[104], [105]].map create_connect_envelope).flatten).drop 3) =
        .ok (ms2, [], false) ∧
      ms1 ++ ms2 = ["h", "i"] ∧
      extract_messages (([[104], [105]].map create_connect_envelope).flatten) =
        .ok (["h", "i"], [], false) :=
  split_buffer_decode [[104], [105]] ["h", "i"] 3 (by decide) (by decide)

/-! ### Decode-status predicates over events -/

/-- An optional stdout/stderr field decodes cleanly (or is absent). -/
def fieldOk : Option String → Bool
  | none => true
  | some s => (decodeField s).isSome

/-- Both fields of a `Data` event decode cleanly. -/
def dataOk (d : ProcessData) : Bool :=
  fieldOk d.stdout && fieldOk d.stderr

/-- An event the synchronous drain passes through without stopping:
`Start`, a cleanly decoding `Data`, or an `End` with `exited = false`. -/
def eventOk : ProcessEventData → Bool
  | .start _ => true
  | .data d => dataOk d
  | .end_ e => !e.exited

/-- All events in a list are passed through by the synchronous drain. -/
def stepsOk (events : List ProcessEventData) : Bool :=
  events.all eventOk

/-- `true` exactly on `End` events. -/
def isEndEvent : ProcessEventData → Bool
  | .end_ _ => true
  | _ => false

/-- A stream item that is not an `End` event (an error item or a
`Start`/`Data` event). -/
def itemNoEnd : Except Error ProcessEventData → Bool
  | .ok (.end_ _) => false
  | _ => true

theorem appendDecoded_ok (name acc : String) (o : Option String) (h : fieldOk o = true) :
    ∃ t, appendDecoded name acc o = .ok t := by
  cases o with
  | none => exact ⟨acc, rfl⟩
  | some s =>
    simp only [fieldOk, Option.isSome_iff_exists] at h
    obtain ⟨t, ht⟩ := h
    cases hb : base64Decode s with
    | none => simp [decodeField, hb] at ht
    | some bs =>
      cases hu : utf8Decode bs with
      | none => simp [decodeField, hb, hu] at ht
      | some cs => exact ⟨acc ++ String.mk cs, by simp [appendDecoded, hb, hu]⟩

theorem appendDecoded_error (name acc s : String) (h : decodeField s = none) :
    ∃ msg, appendDecoded name acc (some s) = .error (.api 500 msg) := by
  cases hb : base64Decode s with
  | none => exact ⟨"Failed to decode " ++ name, by simp [appendDecoded, hb]⟩
  | some bs =>
    cases hu : utf8Decode bs with
    | none =>
      exact ⟨"Failed to convert " ++ name ++ " to UTF-8", by simp [appendDecoded, hb, hu]⟩
    | some cs => simp [decodeField, hb, hu] at h

/-- A prefix of pass-through events only changes the accumulators. -/
theorem execLoop_append_ok (pre : List ProcessEventData) :
    ∀ (rest : List ProcessEventData) (so se : String) (ec : Option Int),
      stepsOk pre = true →
      ∃ so' se', execLoop (pre ++ rest) so se ec = execLoop rest so' se' ec := by
  induction pre with
  | nil => exact fun rest so se ec _ => ⟨so, se, rfl⟩
  | cons ev pre ih =>
    intro rest so se ec h
    simp only [stepsOk, List.all_cons, Bool.and_eq_true] at h
    cases ev with
    | start pid =>
      obtain ⟨so', se', hrec⟩ := ih rest so se ec h.2
      exact ⟨so', se', by simpa [execLoop] using hrec⟩
    | data d =>
      have hd : dataOk d = true := h.1
      simp only [dataOk, Bool.and_eq_true] at hd
      obtain ⟨t1, ht1⟩ := appendDecoded_ok "stdout" so d.stdout hd.1
      obtain ⟨t2, ht2⟩ := appendDecoded_ok "stderr" se d.stderr hd.2
      obtain ⟨so', se', hrec⟩ := ih rest t1 t2 ec h.2
      exact ⟨so', se', by simpa [execLoop, ht1, ht2] using hrec⟩
    | end_ e =>
      have he : e.exited = false := by simpa [eventOk] using h.1
      obtain ⟨so', se', hrec⟩ := ih rest so se ec h.2
      exact ⟨so', se', by simpa [execLoop, he] using hrec⟩

/-- A field that fails the decode predicate is present and its content
fails to decode. -/
theorem fieldOk_false_some {s : String} (h : fieldOk (some s) = false) :
    decodeField s = none := by
  cases hdf : decodeField s with
  | none => rfl
  | some t => simp [fieldOk, hdf] at h

/-- C5 (counterexample): the claim says every receive path, including
the drainer spawned by `run_background`, fails the call on invalid
base64; the drainer in the code instead resolves normally and silently
drops the chunk: fed one `Data` event whose stdout `"!!!!"` is not
valid base64, it resolves the slot with empty stdout and no failure. -/
theorem drainer_swallows_bad_base64 :
    drainRun [.ok (.data ⟨some "!!!!", none⟩)] = ⟨"", "", -1, none⟩ := by
  decide

/-- C5 (amended): a `Data` event with a present stdout or stderr field
that is not valid base64 (or whose decoded bytes are not valid UTF-8)
fails the whole call on the synchronous receive path — after any
prefix of cleanly processed events — with the `Api { status: 500 }`
decode error; the background drainer spawned by `run_background` does
not fail: a stdout or stderr chunk that fails decoding is silently
skipped, leaving that accumulator untouched while the other field is
processed normally and draining continues. -/
theorem base64_failure_behavior :
    (∀ (pre : List ProcessEventData) (d : ProcessData) (post : List ProcessEventData),
      stepsOk pre = true → dataOk d = false →
      ∃ msg, executeCommand (pre ++ .data d :: post) = .error (.api 500 msg)) ∧
    (∀ (s : String) (d : ProcessData) (rest : List (Except Error ProcessEventData))
      (so se : String) (ec : Option Int), d.stdout = some s → decodeField s = none →
      drainLoop (.ok (.data d) :: rest) so se ec =
        drainLoop rest so (drainField se d.stderr) ec) ∧
    (∀ (s : String) (d : ProcessData) (rest : List (Except Error ProcessEventData))
      (so se : String) (ec : Option Int), d.stderr = some s → decodeField s = none →
      drainLoop (.ok (.data d) :: rest) so se ec =
        drainLoop rest (drainField so d.stdout) se ec) := by
  refine ⟨?_, ?_, ?_⟩
  · intro pre d post hpre hbad
    obtain ⟨so', se', hrec⟩ := execLoop_append_ok pre (.data d :: post) "" "" none hpre
    cases hfs : fieldOk d.stdout with
    | false =>
      cases hso : d.stdout with
      | none => simp [fieldOk, hso] at hfs
      | some s =>
        have hdf : decodeField s = none := fieldOk_false_some (hso ▸ hfs)
        obtain ⟨msg, hmsg⟩ := appendDecoded_error "stdout" so' s hdf
        refine ⟨msg, ?_⟩
        rw [executeCommand, hrec]
        simp [execLoop, hso, hmsg]
    | true =>
      have hfe : fieldOk d.stderr = false := by
        simpa [dataOk, hfs] using hbad
      cases hse : d.stderr with
      | none => simp [fieldOk, hse] at hfe
      | some s =>
        have hdf : decodeField s = none := fieldOk_false_some (hse ▸ hfe)
        obtain ⟨t1, ht1⟩ := appendDecoded_ok "stdout" so' d.stdout hfs
        obtain ⟨msg, hmsg⟩ := appendDecoded_error "stderr" se' s hdf
        refine ⟨msg, ?_⟩
        rw [executeCommand, hrec]
        simp [execLoop, ht1, hse, hmsg]
  · intro s d rest so se ec hso h
    simp [drainLoop, hso, drainField, h]
  · intro s d rest so se ec hse h
    simp [drainLoop, hse, drainField, h]

/-- C5 (witness): the synchronous failure applied at the concrete
stream `[Data{stderr: "!!!!"}]` (empty clean prefix, failing stderr
field). -/
theorem base64_failure_behavior_witness :
    ∃ msg, executeCommand [.data ⟨none, some "!!!!"⟩] = .error (.api 500 msg) := by
  have h := base64_failure_behavior.1 [] ⟨none, some "!!!!"⟩ [] (by decide) (by decide)
  simpa using h

/-- If no event is an `End`, the exit code is never assigned, so the
synchronous drain reports the sentinel `-1`. -/
theorem execLoop_no_end (events : List ProcessEventData) :
    ∀ (so se : String) (r : CommandResult),
      events.all (fun e => !isEndEvent e) = true →
      execLoop events so se none = .ok r → r.exit_code = -1 := by
  induction events with
  | nil =>
    intro so se r _ h
    cases h
    rfl
  | cons ev rest ih =>
    intro so se r hall h
    simp only [List.all_cons, Bool.and_eq_true] at hall
    cases ev with
    | start pid => exact ih so se r hall.2 (by simpa [execLoop] using h)
    | data d =>
      rw [execLoop] at h
      cases h1 : appendDecoded "stdout" so d.stdout with
      | error e => rw [h1] at h; cases h
      | ok so' =>
        rw [h1] at h
        cases h2 : appendDecoded "stderr" se d.stderr with
        | error e => rw [h2] at h; cases h
        | ok se' =>
          rw [h2] at h
          exact ih so' se' r hall.2 h
    | end_ e => simp [isEndEvent] at hall

/-- C6: a synchronous run over a stream that delivers `Start` and
`Data` events but is cut (transport close) before any `End` event
terminates (the drain is a total function) and, when the data decodes,
returns all accumulated output with exit code `-1` — never a reported
success with exit code 0.  Concretely, `Start, Data(stdout: enc "x")`
followed by the close yields stdout `"x"` and exit code `-1`. -/
theorem missing_end_sentinel :
    (∀ (events : List ProcessEventData) (r : CommandResult),
      events.all (fun e => !isEndEvent e) = true →
      executeCommand events = .ok r → r.exit_code = -1) ∧
    executeCommand [.start 1, .data ⟨some "eA==", none⟩] = .ok ⟨"x", "", -1, none⟩ := by
  exact ⟨fun events r hall h => execLoop_no_end events "" "" r hall h, by decide⟩

/-- C6 (witness): the sentinel at the concrete cut stream
`[Start, Data(stdout: enc "x")]`. -/
theorem missing_end_sentinel_witness :
    (⟨"x", "", -1, none⟩ : CommandResult).exit_code = -1 :=
  missing_end_sentinel.1 [.start 1, .data ⟨some "eA==", none⟩] ⟨"x", "", -1, none⟩
    (by decide) (by decide)

/-- If the drainer terminates without processing an `End` event (error
item or end-of-stream), the exit code is the sentinel `-1`. -/
theorem drainLoop_no_end (stream : List (Except Error ProcessEventData)) :
    ∀ (so se : String), stream.all itemNoEnd = true →
      (drainLoop stream so se none).exit_code = -1 := by
  induction stream with
  | nil => intro so se _; rfl
  | cons item rest ih =>
    intro so se hall
    simp only [List.all_cons, Bool.and_eq_true] at hall
    cases item with
    | error e => rfl
    | ok ev =>
      cases ev with
      | start pid => exact ih so se hall.2
      | data d => exact ih (drainField so d.stdout) (drainField se d.stderr) hall.2
      | end_ e => simp [itemNoEnd] at hall

/-- C7: the drainer task spawned by `run_background` resolves the
oneshot result slot exactly once on every termination path of its event
loop — `End` event, stream error, or end-of-stream without `End` — and
in the two latter cases with exit code `-1` and the partial output
collected so far.  Concretely: a stream ending in `End{exit_code:
Some(0)}` resolves once with code 0; the same stream cut by an error
or by the end of the stream resolves once with the partial stdout
`"x"` and code `-1`. -/
theorem drainer_always_resolves :
    (∀ stream : List (Except Error ProcessEventData),
      ∃ r, drainSends stream = [r] ∧ (stream.all itemNoEnd = true → r.exit_code = -1)) ∧
    drainSends [.ok (.start 5), .ok (.data ⟨some "eA==", none⟩), .ok (.end_ ⟨true, "", some 0⟩)] =
      [⟨"x", "", 0, none⟩] ∧
    drainSends [.ok (.start 5), .ok (.data ⟨some "eA==", none⟩), .error (.api 500 "cut")] =
      [⟨"x", "", -1, none⟩] ∧
    drainSends [.ok (.start 5), .ok (.data ⟨some "eA==", none⟩)] = [⟨"x", "", -1, none⟩] := by
  refine ⟨fun stream => ⟨drainRun stream, rfl, fun h => drainLoop_no_end stream "" "" h⟩,
    by decide, by decide, by decide⟩

/-- C7 (witness): the single resolution with the sentinel at a concrete
stream cut after its `Start` event. -/
theorem drainer_always_resolves_witness :
    ∃ r, drainSends [.ok (.start 9)] = [r] ∧ r.exit_code = -1 := by
  obtain ⟨r, h1, h2⟩ := drainer_always_resolves.1 [.ok (.start 9)]
  exact ⟨r, h1, h2 (by decide)⟩

/-- C8: for every pid, `kill` returns `Ok(true)` when the signal send
succeeds, `Ok(false)` when the remote responds with the 404-equivalent
`Api { status: 404 }` (process not found), and propagates every other
failure unchanged. -/
theorem kill_not_found_is_false :
    (∀ pid : Nat, kill (some (.ok ())) pid = .ok true) ∧
    (∀ (pid : Nat) (m : String), kill (some (.error (.api 404 m))) pid = .ok false) ∧
    (∀ (pid : Nat) (e : Error), isApi404 e = false →
      kill (some (.error e)) pid = .error e) := by
  refine ⟨fun pid => rfl, fun pid m => rfl, fun pid e h => ?_⟩
  simp [kill, h]

/-- C8 (witness): a non-404 failure (`Timeout`) propagates. -/
theorem kill_not_found_is_false_witness :
    kill (some (.error .timeout)) 1 = .error .timeout :=
  kill_not_found_is_false.2.2 1 .timeout (by decide)

/-- C9 (counterexample): the claim says an operation invoked before
`init_rpc` fails with the `Error::Configuration` variant; the code
returns `Error::Api { status: 500 }`, which is not the configuration
variant. -/
theorem uninitialized_error_is_api_not_configuration :
    run (none : Option ExecEnv) "echo hi" =
        .error (.api 500 "RPC client not initialized. Call init_rpc first.") ∧
      isConfigurationError
        (.api 500 "RPC client not initialized. Call init_rpc first.") = false := by
  exact ⟨rfl, rfl⟩

/-- C9 (amended): every operation of the Commands API (`run`,
`run_background`, `wait_for_command`, `list`, `kill`, `send_stdin`)
invoked before `init_rpc` fails fast — no panic — with the API-category
error `Api { status: 500, message: "RPC client not initialized. Call
init_rpc first." }` rather than the configuration variant. -/
theorem uninitialized_rpc_fails_fast :
    (∀ cmd : String, run none cmd = .error rpcUninitError) ∧
    (∀ cmd : String, run_background none cmd = .error rpcUninitError) ∧
    (∀ pid : Nat, wait_for_command none pid = .error rpcUninitError) ∧
    (∀ k : Unit → Except Error (List ProcessInfo),
      list (none : Option Unit) k = .error rpcUninitError) ∧
    (∀ pid : Nat, kill none pid = .error rpcUninitError) ∧
    (∀ (pid : Nat) (s : String), send_stdin none pid s = .error rpcUninitError) ∧
    rpcUninitError = .api 500 "RPC client not initialized. Call init_rpc first." ∧
    isConfigurationError rpcUninitError = false := by
  exact ⟨fun _ => rfl, fun _ => rfl, fun _ => rfl, fun _ => rfl, fun _ => rfl,
    fun _ _ => rfl, rfl, rfl⟩

/-- C10: `CommandOptions::default()` sets a 60-second timeout, so a
plain `run(cmd)` is bounded by 60 seconds: a drain that takes longer
returns the distinct `Error::Timeout`, while options with
`timeout = None` impose no bound (the drain's own result is returned
whatever its duration). -/
theorem default_timeout_bound :
    CommandOptions.default.timeout = some 60 ∧
    (∀ (ev : List ProcessEventData) (el : Nat) (cmd : String), 60 < el →
      run (some ⟨ev, el⟩) cmd = .error .timeout) ∧
    (∀ (ev : List ProcessEventData) (el : Nat) (cmd : String),
      run_with_options (some ⟨ev, el⟩) cmd ⟨none, none, none, false⟩ =
        executeCommand ev) := by
  refine ⟨rfl, fun ev el cmd h => ?_, fun ev el cmd => rfl⟩
  simp [run, run_with_options, CommandOptions.default, execDuration, h]

/-- C10 (witness): a 61-second drain times out under the default
options. -/
theorem default_timeout_bound_witness :
    run (some ⟨[], 61⟩) "sleep 61" = .error .timeout :=
  default_timeout_bound.2.1 [] 61 "sleep 61" (by decide)

end E2b
